import Mathlib

/-!
Shallow embedding of `testfiles/slendemake_fx/convertmap.py`: a build-time
pipeline that converts a Tiled map (tile layer + object layer) into flat
byte tables (tile grid, sprite grid, landmark location tables).

Conventions of the embedding:
* Python floats coming from the map document are embedded as rationals (`ℚ`);
  `math.floor` and Python floor division become `Int.floor`.
* Python list indexing (including negative-index wraparound and IndexError)
  is modelled by `pyIdx`.
* A failed `assert` or a raised exception aborts the run; this is modelled by
  `Except String`, the string being a tag for the Python error message.
-/

/-- Configuration constant: bytes per sprite-map cell (`sbytes = 2`). -/
def sbytes : Nat := 2

/-- Configuration constant: the reserved entrance tile value (`entrancetile = 2`). -/
def entrancetile : Int := 2

/-- Configuration constant: the reserved page sprite id (`pagesprite = 10`). -/
def pagesprite : Int := 10

/-- Configuration constant: the reserved slender sprite id (`slendersprite = 11`). -/
def slendersprite : Int := 11

/-- Configuration constant: pixels per tile (`tilesize = 16`). -/
def tilesize : Nat := 16

/-- Configuration constant: the renderer visibility span (`spriteview = 13`). -/
def spriteview : Nat := 13

/-- Configuration constant: maximum live sprites per window (`spritemax = 30`). -/
def spritemax : Nat := 30

/-- Python list index resolution: an index `i` into a list of length `len`
addresses position `i` when `0 ≤ i < len`, position `len + i` when
`-len ≤ i < 0`, and raises IndexError (here: `none`) otherwise. -/
def pyIdx (len : Nat) (i : Int) : Option Nat :=
  if 0 ≤ i ∧ i < (len : Int) then some i.toNat
  else if -(len : Int) ≤ i ∧ i < 0 then some ((len : Int) + i).toNat
  else none

/-- `tmi(x, y)`: tile map index, `x + y * width`. -/
def tmi (width x y : Nat) : Nat := x + y * width

/-- `smi(x, y)`: sprite map index, `sbytes * (x + y * width)`. -/
def smi (width x y : Nat) : Nat := sbytes * (x + y * width)

/-! ## Tile rasterizer (the first `for i in range(len(tilelayer["data"]))` loop) -/

/-- State built by the tile rasterizer: the tile grid and the entrance
coordinate found so far (initially `(0, 0)`). -/
structure TState where
  tmap : List Int
  entrance_x : Nat
  entrance_y : Nat
deriving DecidableEq, Repr

/-- One iteration of the tile loop: `mx = width-1-(i % width)`, `my = i // width`,
`tmap[tmi(mx,my)] = max(0, data[i] - tilegid)`, and if the value just stored
equals `entrancetile` the entrance coordinate becomes `(mx, my)`. -/
def rasterStep (width : Nat) (tilegid : Int) (i : Nat) (v : Int) (s : TState) : TState :=
  let mx := width - 1 - i % width
  let my := i / width
  let mi := tmi width mx my
  let t := s.tmap.set mi (max 0 (v - tilegid))
  if t.getD mi 0 = entrancetile then ⟨t, mx, my⟩ else ⟨t, s.entrance_x, s.entrance_y⟩

/-- The tile loop, iterating over the remaining data with `i` the current index. -/
def rasterLoop (width : Nat) (tilegid : Int) : Nat → List Int → TState → TState
  | _, [], s => s
  | i, v :: rest, s => rasterLoop width tilegid (i + 1) rest (rasterStep width tilegid i v s)

/-- The whole rasterizer stage: start from an all-zero `width*height` tile map
and entrance `(0, 0)` and run the tile loop over the layer data. -/
def rasterize (width height : Nat) (tilegid : Int) (data : List Int) : TState :=
  rasterLoop width tilegid 0 data ⟨List.replicate (width * height) 0, 0, 0⟩

/-! ## Object placer (the `for obj in objectlayer["objects"]` loop) -/

/-- An object of the object layer: pixel-space position and size, a global
sprite id, and a name. The name is used only through the Python `int(...)`
conversion; `name` holds the result of that parse (`none` when the name does
not parse as an integer, in which case `int` raises `ValueError`). -/
structure Obj where
  x : ℚ
  y : ℚ
  width : ℚ
  height : ℚ
  gid : Int
  name : Option Int
deriving DecidableEq, Repr

/-- `x = width - (obj.x + obj.width // 2) / tilesize` (horizontal flip). -/
def objX (width : Nat) (o : Obj) : ℚ :=
  (width : ℚ) - (o.x + (⌊o.width / 2⌋ : ℤ)) / (tilesize : ℚ)

/-- `y = (obj.y - min(obj.height // 2, 16)) / tilesize`. -/
def objY (o : Obj) : ℚ :=
  (o.y - (min ⌊o.height / 2⌋ 16 : ℤ)) / (tilesize : ℚ)

/-- `id = max(0, obj.gid - spritegid)`. -/
def idOf (spritegid : Int) (o : Obj) : Int := max 0 (o.gid - spritegid)

/-- `mapx = math.floor(x)`. -/
def mapxOf (width : Nat) (o : Obj) : Int := ⌊objX width o⌋

/-- `mapy = math.floor(y)`. -/
def mapyOf (o : Obj) : Int := ⌊objY o⌋

/-- `mapi = smi(mapx, mapy) = sbytes * (mapx + mapy * width)`, as a Python int
(may be negative or past the end of `smap`). -/
def mapiOf (width : Nat) (o : Obj) : Int :=
  (sbytes : Int) * (mapxOf width o + mapyOf o * (width : Int))

/-- The packed sub-tile fraction byte
`math.floor(16 * (x - mapx)) + (math.floor(16 * (y - mapy)) << 4)`. -/
def mapfraction (x y : ℚ) : Int :=
  ⌊16 * (x - (⌊x⌋ : ℤ))⌋ + ⌊16 * (y - (⌊y⌋ : ℤ))⌋ * 16

/-- Tag for `assert id > 0, "Sprite ID invalid"`. -/
def idErr : String := "Sprite ID invalid"

/-- Tag for the `ValueError` raised by `int(obj["name"])` on a bad name. -/
def valueErr : String := "ValueError"

/-- Tag for a Python `IndexError` (list index out of range). -/
def indexErr : String := "IndexError"

/-- Tag for `assert smap[mapi] == 0, "Two sprites in the same location"`. -/
def collisionErr : String := "Two sprites in the same location"

/-- Tag for `assert smap[mapi + 1] < 256, "Invalid smap float position"`. -/
def fracErr : String := "Invalid smap float position"

/-- State built by the object placer: the sprite map and the 20-slot page and
slender landmark lists. -/
structure PState where
  smap : List Int
  pages : List (List Int)
  slenders : List (List Int)
deriving DecidableEq, Repr

/-- Processing of a single object, following the body of the object loop:
compute `x`, `y`, `id` (fatal if `id ≤ 0`), `mapx`, `mapy`, `mapi`;
route page/slender objects into the landmark lists keyed by `int(obj.name)`
(Python list indexing, so a `ValueError` or `IndexError` aborts); otherwise
require the sprite cell to be empty and write the id byte and the packed
fraction byte, asserting the fraction byte read back is `< 256`. -/
def placeObj (width : Nat) (spritegid : Int) (s : PState) (o : Obj) : Except String PState :=
  let x := objX width o
  let y := objY o
  let id := idOf spritegid o
  if id ≤ 0 then .error idErr
  else
    let mapx := mapxOf width o
    let mapy := mapyOf o
    let mapi := mapiOf width o
    if id = pagesprite then
      match o.name with
      | none => .error valueErr
      | some locationid =>
        match pyIdx s.pages.length locationid with
        | none => .error indexErr
        | some k =>
          .ok { s with pages := s.pages.set k (s.pages.getD k [] ++ [mapx, mapy]) }
    else if id = slendersprite then
      match o.name with
      | none => .error valueErr
      | some locationid =>
        match pyIdx s.slenders.length locationid with
        | none => .error indexErr
        | some k =>
          .ok { s with slenders := s.slenders.set k (s.slenders.getD k [] ++ [mapx, mapy]) }
    else
      match pyIdx s.smap.length mapi with
      | none => .error indexErr
      | some p =>
        if s.smap.getD p 0 ≠ 0 then .error collisionErr
        else
          let sm1 := s.smap.set p id
          match pyIdx sm1.length (mapi + 1) with
          | none => .error indexErr
          | some p1 =>
            let sm2 := sm1.set p1 (mapfraction x y)
            if sm2.getD p1 0 < 256 then .ok { s with smap := sm2 }
            else .error fracErr

/-- The object loop over the whole object list. -/
def placeObjs (width : Nat) (spritegid : Int) : List Obj → PState → Except String PState
  | [], s => .ok s
  | o :: rest, s =>
    match placeObj width spritegid s o with
    | .error e => .error e
    | .ok s1 => placeObjs width spritegid rest s1

/-- The initial placer state: `smap = [0] * width * height * sbytes` and
twenty empty page and slender landmark slots. -/
def initPState (width height : Nat) : PState :=
  ⟨List.replicate (width * height * sbytes) 0, List.replicate 20 [], List.replicate 20 []⟩

/-! ## Density validator -/

/-- Number of occupied cells (`smap[smi(xo+x, yo+y)]` truthy) in the
`spriteview × spriteview` window whose top-left corner is `(xo, yo)`. -/
def countWindow (width : Nat) (smap : List Int) (xo yo : Nat) : Nat :=
  ((List.range spriteview).map (fun x =>
    ((List.range spriteview).filter (fun y =>
      smap.getD (smi width (xo + x) (yo + y)) 0 ≠ 0)).length)).sum

/-- The density check as the code performs it: for `xo in range(width -
spriteview)` and `yo in range(height - spriteview)`, the window count must
not exceed `spritemax`. Returns `true` when every checked window passes. -/
def densityCheck (width height : Nat) (smap : List Int) : Bool :=
  (List.range (width - spriteview)).all (fun xo =>
    (List.range (height - spriteview)).all (fun yo =>
      countWindow width smap xo yo ≤ spritemax))

/-! ## Landmark table emitter (`dumplocbased`) -/

/-- The emission loop of `dumplocbased`: walking the landmark slots in order,
skipping empty ones; for a non-empty slot the running raw position is recorded
in `indexes`, then the pair count `len // numbytes` and the slot values are
appended to the raw table and the values alone to `trueraw`. Returns
`(raw, trueraw, indexes)`. -/
def dumpSections (numbytes : Nat) (totalraw : Nat) :
    List (List Int) → List Int × List Int × List Nat
  | [] => ([], [], [])
  | l :: rest =>
    if l = [] then dumpSections numbytes totalraw rest
    else
      let r := dumpSections numbytes (totalraw + 1 + l.length) rest
      (((l.length / numbytes : Nat) : Int) :: l ++ r.1, l ++ r.2.1, totalraw :: r.2.2)

/-- Tag for `assert truepos < 256, "Too many raw locations ..."`. -/
def locOverflowErr : String := "Too many raw locations for indexing with a single byte"

/-- `dumplocbased`: build the three tables, then
`truepos = len(trueraw) // numbytes` must be `< 256` or the run aborts. -/
def dumplocbased (data : List (List Int)) (numbytes : Nat) :
    Except String (List Int × List Int × List Nat) :=
  let r := dumpSections numbytes 0 data
  if r.2.1.length / numbytes < 256 then .ok r else .error locOverflowErr

/-! ## Basic lemmas about the embedding -/

theorem pyIdx_some_lt {len : Nat} {i : Int} {p : Nat} (h : pyIdx len i = some p) :
    p < len := by
  unfold pyIdx at h
  split at h
  · next hc => cases h; omega
  · split at h
    · next hc => cases h; omega
    · cases h

theorem pyIdx_mod_two {len : Nat} {i : Int} {p : Nat} (h : pyIdx len i = some p)
    (hlen : 2 ∣ len) : (p : Int) % 2 = i % 2 := by
  unfold pyIdx at h
  split at h
  · next hc => cases h; omega
  · split at h
    · next hc => cases h; omega
    · cases h

theorem fract_floor16_bounds (x : ℚ) :
    0 ≤ ⌊16 * (x - (⌊x⌋ : ℤ))⌋ ∧ ⌊16 * (x - (⌊x⌋ : ℤ))⌋ ≤ 15 := by
  have h0 : (0 : ℚ) ≤ x - (⌊x⌋ : ℤ) := by
    have := Int.floor_le x
    linarith
  have h1 : x - ((⌊x⌋ : ℤ) : ℚ) < 1 := by
    have := Int.lt_floor_add_one x
    linarith
  constructor
  · exact Int.floor_nonneg.mpr (by positivity)
  · have h2 : ⌊16 * (x - ((⌊x⌋ : ℤ) : ℚ))⌋ < 16 := by
      apply Int.floor_lt.mpr
      push_cast
      linarith
    omega

theorem mapfraction_bounds (x y : ℚ) : 0 ≤ mapfraction x y ∧ mapfraction x y < 256 := by
  have hx := fract_floor16_bounds x
  have hy := fract_floor16_bounds y
  unfold mapfraction
  omega

/-- C7: for every ordinary sprite object, the packed-fraction byte
`floor(16*(x - floor(x))) + (floor(16*(y - floor(y))) << 4)` is always in
`[0, 256)` (each 4-bit field lies in `[0, 15]`), so the assertion guarding it
after the write (`assert smap[mapi + 1] < 256`) can never fire: no run of the
object placer ever aborts with that assertion. -/
theorem C7_fraction_byte_lt_256 :
    (∀ x y : ℚ, 0 ≤ mapfraction x y ∧ mapfraction x y < 256) ∧
    (∀ (width : Nat) (spritegid : Int) (s : PState) (o : Obj),
      placeObj width spritegid s o ≠ Except.error fracErr) := by
  refine ⟨mapfraction_bounds, ?_⟩
  intro w sg s o
  simp only [placeObj]
  split
  · exact fun hco => absurd (Except.error.inj hco) (by decide)
  split
  · split
    · exact fun hco => absurd (Except.error.inj hco) (by decide)
    · split
      · exact fun hco => absurd (Except.error.inj hco) (by decide)
      · exact fun hco => by cases hco
  split
  · split
    · exact fun hco => absurd (Except.error.inj hco) (by decide)
    · split
      · exact fun hco => absurd (Except.error.inj hco) (by decide)
      · exact fun hco => by cases hco
  split
  · exact fun hco => absurd (Except.error.inj hco) (by decide)
  next p hq =>
    split
    · exact fun hco => absurd (Except.error.inj hco) (by decide)
    next hz =>
      split
      · exact fun hco => absurd (Except.error.inj hco) (by decide)
      next p1 hq1 =>
        have hp1 : p1 < ((s.smap.set p (idOf sg o)).length) := pyIdx_some_lt hq1
        have hlt : ((s.smap.set p (idOf sg o)).set p1
            (mapfraction (objX w o) (objY o))).getD p1 0 < 256 := by
          rw [List.getD_eq_getElem?_getD, List.getElem?_set_eq_of_lt _ hp1]
          simpa using (mapfraction_bounds (objX w o) (objY o)).2
        rw [if_pos hlt]
        exact fun hco => by cases hco

/-- Decidable equality of run results, used to evaluate the embedding at
concrete inputs. -/
instance {ε α : Type} [DecidableEq ε] [DecidableEq α] : DecidableEq (Except ε α) := fun x y =>
  match x, y with
  | .ok a, .ok b =>
    if h : a = b then .isTrue (by rw [h]) else .isFalse (fun hco => h (Except.ok.inj hco))
  | .error a, .error b =>
    if h : a = b then .isTrue (by rw [h]) else .isFalse (fun hco => h (Except.error.inj hco))
  | .ok a, .error b => .isFalse (fun hco => by cases hco)
  | .error a, .ok b => .isFalse (fun hco => by cases hco)

/-- An ordinary sprite object at pixel position `x = 0` with pixel width `0`
(and `y = 8`, height `0`, rebased id `1`): its flipped continuous coordinate
is `x = width`, so the floored cell is `(width, 0)`. -/
def oAlias : Obj := ⟨0, 8, 0, 0, 1, none⟩

/-- The same object moved to `y = 56`: on a height-4 grid the floored cell is
`(width, 3)`, the last row. -/
def oOob : Obj := ⟨0, 56, 0, 0, 1, none⟩

/-- C8: the object placer never validates that the floored cell lies inside
the grid. On a 4x4 grid, `oAlias` gets `mapx = 4 = width`, its sprite-map
index `8` equals `smi(0, 1)`, and the placer happily writes the sprite id `1`
into cell `(0, 1)` of the next row; `oOob` (same `mapx`, last row `mapy = 3`)
computes index `32 = len(smap)` and the run aborts with an IndexError. -/
theorem C8_no_bounds_check :
    mapxOf 4 oAlias = 4 ∧ mapyOf oAlias = 0 ∧
    mapiOf 4 oAlias = (smi 4 0 1 : Int) ∧
    Except.map (fun s => s.smap.getD (smi 4 0 1) 0) (placeObj 4 0 (initPState 4 4) oAlias) =
      Except.ok 1 ∧
    mapxOf 4 oOob = 4 ∧ mapyOf oOob = 3 ∧
    mapiOf 4 oOob = ((initPState 4 4).smap.length : Int) ∧
    placeObj 4 0 (initPState 4 4) oOob = Except.error indexErr := by
  norm_num [placeObj, idOf, mapiOf, mapxOf, mapyOf, objX, objY, oAlias, oOob, tilesize,
    sbytes, pagesprite, slendersprite, initPState, pyIdx, mapfraction, smi]
  decide

/-- A 13x13 sprite grid whose first 31 cells are occupied (id byte 1): all 31
occupied cells lie inside the single valid 13x13 window, at offset `(0, 0)`. -/
def badSmap : List Int :=
  ((List.range 169).map (fun i => if i < 31 then ([1, 0] : List Int) else [0, 0])).flatten

/-- C1 (code bug): the density check iterates `xo in range(width - spriteview)`
and `yo in range(height - spriteview)`, which EXCLUDES the boundary offsets
`width - spriteview` and `height - spriteview`. On a 13x13 map no window at
all is checked, so a grid with 31 occupied cells inside the one valid window
at offset `(0, 0)` passes, although 31 exceeds the budget of 30. -/
theorem C1_density_check_misses_boundary_offset :
    densityCheck 13 13 badSmap = true ∧
    countWindow 13 badSmap 0 0 = 31 ∧
    spritemax < 31 := by
  refine ⟨rfl, by decide, by decide⟩

/-- The `trueraw` table built by the emission loop is exactly the
concatenation of all landmark slot contents (empty slots contribute nothing). -/
theorem dumpSections_trueraw (numbytes totalraw : Nat) (data : List (List Int)) :
    (dumpSections numbytes totalraw data).2.1 = data.flatten := by
  induction data generalizing totalraw with
  | nil => rfl
  | cons l rest ih =>
    unfold dumpSections
    by_cases hl : l = []
    · simp [hl, ih]
    · simp [hl, ih]

/-- A single landmark slot flattening to exactly 256 coordinate bytes
(128 coordinate pairs). -/
def overflow256 : List (List Int) := [List.replicate 256 0]

set_option maxRecDepth 4000 in
/-- C2 counterexample: flattening one landmark list to exactly 256 coordinate
bytes (128 pairs) does NOT abort — `dumplocbased` succeeds, because the code
bounds the PAIR count (`len(trueraw) // numbytes < 256`), not the byte count. -/
theorem C2_counterexample_256_bytes_pass :
    overflow256.flatten.length = 256 ∧ (dumplocbased overflow256 2).isOk = true := by
  refine ⟨by decide, by decide⟩

/-- C2 (amended): for each landmark list, the emitter aborts fatally exactly
when the flattened coordinate PAIR count (`len(trueraw) // 2`) exceeds 255,
i.e. when the flattened byte count reaches 512; 511 coordinate bytes
(255 full pairs) or fewer succeed. -/
theorem C2_amended_pair_count_limit (data : List (List Int)) :
    (dumplocbased data 2).isOk = true ↔ data.flatten.length / 2 < 256 := by
  simp only [dumplocbased]
  rw [dumpSections_trueraw]
  split
  · next h => exact iff_of_true rfl h
  · next h => exact iff_of_false (by decide) h

/-- Unfolding of `placeObj` on a page object (`id == pagesprite`). -/
theorem placeObj_page_eq (w : Nat) (sg : Int) (s : PState) (o : Obj)
    (hp : idOf sg o = pagesprite) :
    placeObj w sg s o =
      match o.name with
      | none => Except.error valueErr
      | some locationid =>
        match pyIdx s.pages.length locationid with
        | none => Except.error indexErr
        | some k =>
          Except.ok { s with pages := s.pages.set k (s.pages.getD k [] ++ [mapxOf w o, mapyOf o]) } := by
  have h1 : ¬ idOf sg o ≤ 0 := by rw [hp]; decide
  simp only [placeObj, if_neg h1, if_pos hp]

/-- Unfolding of `placeObj` on a slender object (`id == slendersprite`). -/
theorem placeObj_slender_eq (w : Nat) (sg : Int) (s : PState) (o : Obj)
    (hs : idOf sg o = slendersprite) :
    placeObj w sg s o =
      match o.name with
      | none => Except.error valueErr
      | some locationid =>
        match pyIdx s.slenders.length locationid with
        | none => Except.error indexErr
        | some k =>
          Except.ok { s with slenders := s.slenders.set k (s.slenders.getD k [] ++ [mapxOf w o, mapyOf o]) } := by
  have h1 : ¬ idOf sg o ≤ 0 := by rw [hs]; decide
  have hp : ¬ idOf sg o = pagesprite := by rw [hs]; decide
  simp only [placeObj, if_neg h1, if_neg hp, if_pos hs]

/-- Inversion of a successful `placeObj`: either the object was routed to a
landmark list (page or slender) and the sprite map is untouched, or it was an
ordinary sprite (positive id, neither reserved id) written into an empty cell. -/
theorem placeObj_ok_inv {w : Nat} {sg : Int} {s : PState} {o : Obj} {s2 : PState}
    (hok : placeObj w sg s o = Except.ok s2) :
    ((idOf sg o = pagesprite ∨ idOf sg o = slendersprite) ∧ s2.smap = s.smap) ∨
    (0 < idOf sg o ∧ idOf sg o ≠ pagesprite ∧ idOf sg o ≠ slendersprite ∧
      ∃ p p1, pyIdx s.smap.length (mapiOf w o) = some p ∧
        pyIdx s.smap.length (mapiOf w o + 1) = some p1 ∧
        s.smap.getD p 0 = 0 ∧
        s2.smap = (s.smap.set p (idOf sg o)).set p1 (mapfraction (objX w o) (objY o))) := by
  simp only [placeObj] at hok
  split at hok
  · cases hok
  next h1 =>
  split at hok
  next hp =>
    left
    refine ⟨Or.inl hp, ?_⟩
    split at hok
    · cases hok
    · split at hok
      · cases hok
      · cases hok; rfl
  next hp =>
  split at hok
  next hs =>
    left
    refine ⟨Or.inr hs, ?_⟩
    split at hok
    · cases hok
    · split at hok
      · cases hok
      · cases hok; rfl
  next hs =>
  right
  refine ⟨by omega, hp, hs, ?_⟩
  split at hok
  · cases hok
  next p hq =>
    split at hok
    · cases hok
    next hz =>
      rw [List.length_set] at hok
      split at hok
      · cases hok
      next p1 hq1 =>
        split at hok
        · cases hok
          exact ⟨p, p1, hq, hq1, by omega, rfl⟩
        · cases hok

/-- C10: processing a page or slender object leaves the sprite grid entirely
unchanged (every id and fraction byte keeps its value), so page and slender
markers never occupy sprite-grid cells and never count toward the per-window
density budget. -/
theorem C10_landmark_objects_leave_smap_unchanged
    (width height : Nat) (spritegid : Int) (s : PState) (o : Obj) (s2 : PState)
    (hid : idOf spritegid o = pagesprite ∨ idOf spritegid o = slendersprite)
    (hok : placeObj width spritegid s o = Except.ok s2) :
    s2.smap = s.smap ∧
    densityCheck width height s2.smap = densityCheck width height s.smap := by
  rcases placeObj_ok_inv hok with ⟨_, hsm⟩ | ⟨_, hp, hs, _⟩
  · exact ⟨hsm, by rw [hsm]⟩
  · rcases hid with hid | hid
    · exact absurd hid hp
    · exact absurd hid hs

/-- A page object (rebased id `10`) named `"1"` at pixel position `(8, 8)`. -/
def oPageW : Obj := ⟨8, 8, 0, 0, 10, some 1⟩

/-- Result of placing `oPageW` on an empty 4x4 map: cell `(3, 0)` is appended
to page landmark slot `1`, the sprite map untouched. -/
def pageResultW : PState :=
  { initPState 4 4 with pages := (List.replicate 20 []).set 1 [3, 0] }

/-- Witness for C10: the page object `oPageW` is accepted and the sprite map
is bytewise unchanged. -/
theorem C10_witness :
    (idOf 0 oPageW = pagesprite ∨ idOf 0 oPageW = slendersprite) ∧
    placeObj 4 0 (initPState 4 4) oPageW = Except.ok pageResultW ∧
    (pageResultW.smap = (initPState 4 4).smap ∧
      densityCheck 4 4 pageResultW.smap = densityCheck 4 4 (initPState 4 4).smap) := by
  have hid : idOf 0 oPageW = pagesprite ∨ idOf 0 oPageW = slendersprite :=
    Or.inl (by decide)
  have hok : placeObj 4 0 (initPState 4 4) oPageW = Except.ok pageResultW := by
    rw [placeObj_page_eq 4 0 (initPState 4 4) oPageW (by decide)]
    have hmx : mapxOf 4 oPageW = 3 := by
      norm_num [mapxOf, objX, oPageW, tilesize]
    have hmy : mapyOf oPageW = 0 := by
      norm_num [mapyOf, objY, oPageW, tilesize]
    simp only [hmx, hmy]
    simp [oPageW, initPState, pageResultW, pyIdx]
  exact ⟨hid, hok, C10_landmark_objects_leave_smap_unchanged 4 4 0 (initPState 4 4)
    oPageW pageResultW hid hok⟩

/-- `pyIdx` on a 20-slot list with a negative in-range index wraps to the end. -/
theorem pyIdx_twenty_neg (lid : Int) (hlo : -20 ≤ lid) (hhi : lid < 0) :
    pyIdx 20 lid = some ((20 + lid).toNat) := by
  unfold pyIdx
  rw [if_neg (by omega), if_pos (by constructor <;> omega)]
  exact congrArg some (by omega)

/-- C9: a page or slender object whose name parses to a negative id in
`[-20, -1]` does not abort: Python negative indexing wraps, so the pair
`(mapx, mapy)` is appended to landmark slot `20 + id`. -/
theorem C9_negative_landmark_id_accepted
    (width : Nat) (spritegid : Int) (s : PState) (o : Obj) (lid : Int)
    (hpl : s.pages.length = 20) (hsl : s.slenders.length = 20)
    (hname : o.name = some lid) (hlo : -20 ≤ lid) (hhi : lid < 0) :
    (idOf spritegid o = pagesprite →
      placeObj width spritegid s o = Except.ok
        { s with pages := (s.pages.set (20 + lid).toNat
            (s.pages.getD (20 + lid).toNat [] ++ [mapxOf width o, mapyOf o])) }) ∧
    (idOf spritegid o = slendersprite →
      placeObj width spritegid s o = Except.ok
        { s with slenders := (s.slenders.set (20 + lid).toNat
            (s.slenders.getD (20 + lid).toNat [] ++ [mapxOf width o, mapyOf o])) }) := by
  constructor
  · intro hp
    rw [placeObj_page_eq width spritegid s o hp]
    simp only [hname, hpl, pyIdx_twenty_neg lid hlo hhi]
  · intro hs
    rw [placeObj_slender_eq width spritegid s o hs]
    simp only [hname, hsl, pyIdx_twenty_neg lid hlo hhi]

/-- A page object (rebased id `10`) named `"-1"` at pixel position `(8, 8)`. -/
def oNegW : Obj := ⟨8, 8, 0, 0, 10, some (-1)⟩

/-- Witness for C9: the page object named `"-1"` is accepted and appended to
slot `20 + (-1) = 19`. -/
theorem C9_witness :
    ((initPState 4 4).pages.length = 20) ∧ (oNegW.name = some (-1)) ∧
    ((-20 : Int) ≤ -1) ∧ ((-1 : Int) < 0) ∧ (idOf 0 oNegW = pagesprite) ∧
    placeObj 4 0 (initPState 4 4) oNegW = Except.ok
      { initPState 4 4 with pages := ((initPState 4 4).pages.set ((20 + (-1 : Int)).toNat)
          ((initPState 4 4).pages.getD ((20 + (-1 : Int)).toNat) [] ++
            [mapxOf 4 oNegW, mapyOf oNegW])) } :=
  ⟨by decide, rfl, by decide, by decide, by decide,
    (C9_negative_landmark_id_accepted 4 0 (initPState 4 4) oNegW (-1)
      (by decide) (by decide) rfl (by decide) (by decide)).1 (by decide)⟩

/-- A page object (rebased id `10`) named `"-21"` at pixel position `(8, 8)`. -/
def oNeg21 : Obj := ⟨8, 8, 0, 0, 10, some (-21)⟩

/-- C6 counterexample: the object name `"-21"` parses as an integer and is not
`≥ 20`, so by the claim the pair should be appended; but the code aborts with
an IndexError (Python rejects indices below `-20` on a 20-slot list). -/
theorem C6_counterexample_neg21_aborts :
    oNeg21.name = some (-21) ∧ ((-21 : Int) < 20) ∧ idOf 0 oNeg21 = pagesprite ∧
    placeObj 4 0 (initPState 4 4) oNeg21 = Except.error indexErr := by
  refine ⟨rfl, by decide, by decide, ?_⟩
  rw [placeObj_page_eq 4 0 (initPState 4 4) oNeg21 (by decide)]
  have hpy : pyIdx (initPState 4 4).pages.length (-21) = none := by decide
  simp only [show oNeg21.name = some (-21) from rfl, hpy]

/-- `pyIdx` on a 20-slot list with an in-range index (negative wraps) is the
Euclidean remainder of the index modulo 20. -/
theorem pyIdx_twenty_mod (lid : Int) (hlo : -20 ≤ lid) (hhi : lid < 20) :
    pyIdx 20 lid = some ((lid % 20).toNat) := by
  unfold pyIdx
  by_cases h0 : 0 ≤ lid
  · rw [if_pos (by constructor <;> omega)]
    exact congrArg some (by omega)
  · rw [if_neg (by omega), if_pos (by constructor <;> omega)]
    exact congrArg some (by omega)

/-- `pyIdx` on a 20-slot list rejects indices `≥ 20` or `< -20`. -/
theorem pyIdx_twenty_none (lid : Int) (h : 20 ≤ lid ∨ lid < -20) :
    pyIdx 20 lid = none := by
  unfold pyIdx
  rw [if_neg (by omega), if_neg (by omega)]

/-- C6 (amended): for a page or slender object, the run aborts fatally when
the name does not parse as an integer, or when the parsed index is out of
Python range for the 20-slot list (`index ≥ 20` or `index < -20`); for an
index in `[-20, 19]` the pair `(mapx, mapy)` is appended to the landmark slot
`index % 20` (negative indices address slots from the end) and nothing else of
the state changes. -/
theorem C6_amended_landmark_routing
    (width : Nat) (spritegid : Int) (s : PState) (o : Obj)
    (hpl : s.pages.length = 20) (hsl : s.slenders.length = 20)
    (hid : idOf spritegid o = pagesprite ∨ idOf spritegid o = slendersprite) :
    (o.name = none → placeObj width spritegid s o = Except.error valueErr) ∧
    (∀ lid : Int, o.name = some lid → (20 ≤ lid ∨ lid < -20) →
      placeObj width spritegid s o = Except.error indexErr) ∧
    (∀ lid : Int, o.name = some lid → -20 ≤ lid → lid < 20 →
      placeObj width spritegid s o = Except.ok
        (if idOf spritegid o = pagesprite then
          { s with pages := (s.pages.set (lid % 20).toNat
              (s.pages.getD (lid % 20).toNat [] ++ [mapxOf width o, mapyOf o])) }
        else
          { s with slenders := (s.slenders.set (lid % 20).toNat
              (s.slenders.getD (lid % 20).toNat [] ++ [mapxOf width o, mapyOf o])) })) := by
  rcases hid with hp | hs
  · have hps : idOf spritegid o = pagesprite := hp
    refine ⟨?_, ?_, ?_⟩
    · intro hname
      rw [placeObj_page_eq width spritegid s o hp]
      simp only [hname]
    · intro lid hname hout
      rw [placeObj_page_eq width spritegid s o hp]
      simp only [hname, hpl, pyIdx_twenty_none lid hout]
    · intro lid hname hlo hhi
      rw [placeObj_page_eq width spritegid s o hp, if_pos hps]
      simp only [hname, hpl, pyIdx_twenty_mod lid hlo hhi]
  · have hpn : idOf spritegid o ≠ pagesprite := by rw [hs]; decide
    refine ⟨?_, ?_, ?_⟩
    · intro hname
      rw [placeObj_slender_eq width spritegid s o hs]
      simp only [hname]
    · intro lid hname hout
      rw [placeObj_slender_eq width spritegid s o hs]
      simp only [hname, hsl, pyIdx_twenty_none lid hout]
    · intro lid hname hlo hhi
      rw [placeObj_slender_eq width spritegid s o hs, if_neg hpn]
      simp only [hname, hsl, pyIdx_twenty_mod lid hlo hhi]

/-- A page object (rebased id `10`) named `"5"` at pixel position `(8, 8)`. -/
def oPage5 : Obj := ⟨8, 8, 0, 0, 10, some 5⟩

/-- Witness for the amended C6: the page object named `"5"` is appended to
landmark slot `5 % 20 = 5`. -/
theorem C6_witness :
    ((initPState 4 4).pages.length = 20) ∧ ((initPState 4 4).slenders.length = 20) ∧
    (idOf 0 oPage5 = pagesprite ∨ idOf 0 oPage5 = slendersprite) ∧
    (oPage5.name = some 5) ∧ ((-20 : Int) ≤ 5) ∧ ((5 : Int) < 20) ∧
    placeObj 4 0 (initPState 4 4) oPage5 = Except.ok
      (if idOf 0 oPage5 = pagesprite then
        { initPState 4 4 with pages := ((initPState 4 4).pages.set ((5 : Int) % 20).toNat
            ((initPState 4 4).pages.getD ((5 : Int) % 20).toNat [] ++
              [mapxOf 4 oPage5, mapyOf oPage5])) }
      else
        { initPState 4 4 with slenders := ((initPState 4 4).slenders.set ((5 : Int) % 20).toNat
            ((initPState 4 4).slenders.getD ((5 : Int) % 20).toNat [] ++
              [mapxOf 4 oPage5, mapyOf oPage5])) }) :=
  ⟨by decide, by decide, Or.inl (by decide), rfl, by decide, by decide,
    (C6_amended_landmark_routing 4 0 (initPState 4 4) oPage5 (by decide) (by decide)
      (Or.inl (by decide))).2.2 5 rfl (by decide) (by decide)⟩

/-- `mapi` is always even: it is `sbytes * (mapx + mapy * width)` with
`sbytes = 2`. -/
theorem mapiOf_even (w : Nat) (o : Obj) : mapiOf w o % 2 = 0 := by
  unfold mapiOf
  exact Int.mul_emod_right 2 _

/-- The physical sprite-map id-byte position an ordinary sprite object writes
to (`none` for page/slender objects and for out-of-range indices). -/
def ordCell (width : Nat) (spritegid : Int) (len : Nat) (o : Obj) : Option Nat :=
  if idOf spritegid o = pagesprite ∨ idOf spritegid o = slendersprite then none
  else pyIdx len (mapiOf width o)

/-- The physical id-byte position of an ordinary sprite is even. -/
theorem ordCell_even {w : Nat} {sg : Int} {len : Nat} {o : Obj} {p : Nat}
    (h : ordCell w sg len o = some p) (hdvd : 2 ∣ len) : 2 ∣ p := by
  unfold ordCell at h
  split at h
  · cases h
  · have h1 := pyIdx_mod_two h hdvd
    have h2 := mapiOf_even w o
    omega

/-- `placeObj` never changes the length of the sprite map. -/
theorem placeObj_ok_smap_length {w : Nat} {sg : Int} {s : PState} {o : Obj} {s2 : PState}
    (hok : placeObj w sg s o = Except.ok s2) : s2.smap.length = s.smap.length := by
  rcases placeObj_ok_inv hok with ⟨_, hsm⟩ | ⟨_, _, _, p, p1, _, _, _, hsm⟩
  · rw [hsm]
  · rw [hsm, List.length_set, List.length_set]

/-- `placeObj` never clears an occupied id byte: a nonzero value at an even
position stays nonzero. -/
theorem placeObj_preserves_nonzero {w : Nat} {sg : Int} {s : PState} {o : Obj} {s2 : PState}
    (hok : placeObj w sg s o = Except.ok s2) (hdvd : 2 ∣ s.smap.length)
    (q : Nat) (hq2 : 2 ∣ q) (hnz : s.smap.getD q 0 ≠ 0) : s2.smap.getD q 0 ≠ 0 := by
  rcases placeObj_ok_inv hok with ⟨_, hsm⟩ | ⟨hpos, _, _, p, p1, hp, hp1, hz, hsm⟩
  · rw [hsm]; exact hnz
  · rw [hsm]
    have hpar1 : (p1 : Int) % 2 = (mapiOf w o + 1) % 2 := pyIdx_mod_two hp1 hdvd
    have hme : mapiOf w o % 2 = 0 := mapiOf_even w o
    have hqp : q ≠ p := fun h => hnz (h ▸ hz)
    have hqp1 : q ≠ p1 := by omega
    rw [List.getD_eq_getElem?_getD, List.getElem?_set_ne (Ne.symm hqp1),
      List.getElem?_set_ne (Ne.symm hqp), ← List.getD_eq_getElem?_getD]
    exact hnz

/-- A successful `placeObj` of an ordinary sprite read its target id byte as
zero and left it nonzero. -/
theorem placeObj_ok_ordinary_cell {w : Nat} {sg : Int} {s : PState} {o : Obj} {s2 : PState}
    {p : Nat} (hok : placeObj w sg s o = Except.ok s2) (hdvd : 2 ∣ s.smap.length)
    (hnp : ¬(idOf sg o = pagesprite ∨ idOf sg o = slendersprite))
    (hpy : pyIdx s.smap.length (mapiOf w o) = some p) :
    s.smap.getD p 0 = 0 ∧ s2.smap.getD p 0 ≠ 0 := by
  rcases placeObj_ok_inv hok with ⟨hid, _⟩ | ⟨hpos, _, _, p', p1, hp', hp1, hz, hsm⟩
  · exact absurd hid hnp
  · rw [hpy] at hp'
    have hpp : p = p' := Option.some.inj hp'
    subst hpp
    refine ⟨hz, ?_⟩
    rw [hsm]
    have hpar1 : (p1 : Int) % 2 = (mapiOf w o + 1) % 2 := pyIdx_mod_two hp1 hdvd
    have hpar : (p : Int) % 2 = mapiOf w o % 2 := pyIdx_mod_two hpy hdvd
    have hme : mapiOf w o % 2 = 0 := mapiOf_even w o
    have hne : p1 ≠ p := by omega
    have hplt : p < s.smap.length := pyIdx_some_lt hpy
    rw [List.getD_eq_getElem?_getD, List.getElem?_set_ne hne,
      List.getElem?_set_eq_of_lt _ hplt]
    simp only [Option.getD_some]
    omega

/-- Invariant of the object loop: in any successful run, the physical id-byte
cells of the ordinary sprites are pairwise distinct, and they were all empty
in the starting state. -/
theorem placeObjs_cells_nodup (w : Nat) (sg : Int) (objs : List Obj) :
    ∀ (s s2 : PState), placeObjs w sg objs s = Except.ok s2 → 2 ∣ s.smap.length →
      (objs.filterMap (ordCell w sg s.smap.length)).Nodup ∧
      ∀ p ∈ objs.filterMap (ordCell w sg s.smap.length), s.smap.getD p 0 = 0 := by
  induction objs with
  | nil => intro s s2 _ _; simp
  | cons o rest ih =>
    intro s s2 hok hdvd
    simp only [placeObjs] at hok
    cases hpo : placeObj w sg s o with
    | error e => rw [hpo] at hok; simp at hok
    | ok s1 =>
      rw [hpo] at hok
      have hlen := placeObj_ok_smap_length hpo
      have ih1 := ih s1 s2 hok (by rw [hlen]; exact hdvd)
      rw [hlen] at ih1
      have hback : ∀ q, 2 ∣ q → s1.smap.getD q 0 = 0 → s.smap.getD q 0 = 0 := by
        intro q hq2 h0
        by_contra hnz
        exact placeObj_preserves_nonzero hpo hdvd q hq2 hnz h0
      rw [List.filterMap_cons]
      cases hoc : ordCell w sg s.smap.length o with
      | none =>
        refine ⟨ih1.1, ?_⟩
        intro q hq
        obtain ⟨o2, _, ho2⟩ := List.mem_filterMap.mp hq
        exact hback q (ordCell_even ho2 hdvd) (ih1.2 q hq)
      | some p0 =>
        have hnp : ¬(idOf sg o = pagesprite ∨ idOf sg o = slendersprite) := by
          intro hcon
          unfold ordCell at hoc
          rw [if_pos hcon] at hoc
          cases hoc
        have hpy : pyIdx s.smap.length (mapiOf w o) = some p0 := by
          unfold ordCell at hoc
          rwa [if_neg hnp] at hoc
        have hcell := placeObj_ok_ordinary_cell hpo hdvd hnp hpy
        constructor
        · rw [List.nodup_cons]
          exact ⟨fun hmem => hcell.2 (ih1.2 p0 hmem), ih1.1⟩
        · intro q hq
          rcases List.mem_cons.mp hq with rfl | hq2
          · exact hcell.1
          · obtain ⟨o2, _, ho2⟩ := List.mem_filterMap.mp hq2
            exact hback q (ordCell_even ho2 hdvd) (ih1.2 q hq2)

/-- C4: an ordinary sprite object (rebased id neither `pagesprite` nor
`slendersprite`) aborts the run with the collision error whenever its target
sprite-grid id byte is already non-zero; consequently, in any run of the
object loop that completes from the initial (all-empty) state, the physical
cells of the ordinary sprites are pairwise distinct — at most one ordinary
sprite occupies any single grid cell. -/
theorem C4_collision_is_fatal_and_cells_unique :
    (∀ (width : Nat) (spritegid : Int) (s : PState) (o : Obj) (p : Nat),
      0 < idOf spritegid o → idOf spritegid o ≠ pagesprite →
      idOf spritegid o ≠ slendersprite →
      pyIdx s.smap.length (mapiOf width o) = some p → s.smap.getD p 0 ≠ 0 →
      placeObj width spritegid s o = Except.error collisionErr) ∧
    (∀ (width height : Nat) (spritegid : Int) (objs : List Obj) (s2 : PState),
      placeObjs width spritegid objs (initPState width height) = Except.ok s2 →
      (objs.filterMap (ordCell width spritegid (width * height * sbytes))).Nodup) := by
  constructor
  · intro w sg s o p hpos hp hs hpy hnz
    simp only [placeObj]
    rw [if_neg (by omega), if_neg hp, if_neg hs]
    simp only [hpy]
    rw [if_pos hnz]
  · intro w h sg objs s2 hok
    have hlen : (initPState w h).smap.length = w * h * sbytes := by
      simp [initPState]
    have hdvd : 2 ∣ (initPState w h).smap.length := by
      rw [hlen]
      exact ⟨w * h, by unfold sbytes; ring⟩
    have hmain := (placeObjs_cells_nodup w sg objs (initPState w h) s2 hok hdvd).1
    rwa [hlen] at hmain

/-- A placer state whose sprite cell `(0, 1)` (physical id byte 8) is already
occupied by a sprite with id 5. -/
def sColl : PState :=
  ⟨(List.replicate 32 0).set 8 5, List.replicate 20 [], List.replicate 20 []⟩

/-- Witness for C4: placing `oAlias` (whose target id byte is 8) on `sColl`
aborts with the collision error, and the one-object run `[oAlias]` from the
empty 4x4 state completes with pairwise distinct cells. -/
theorem C4_witness :
    (0 < idOf 0 oAlias) ∧ (idOf 0 oAlias ≠ pagesprite) ∧
    (idOf 0 oAlias ≠ slendersprite) ∧
    pyIdx sColl.smap.length (mapiOf 4 oAlias) = some 8 ∧
    (sColl.smap.getD 8 0 ≠ 0) ∧
    placeObj 4 0 sColl oAlias = Except.error collisionErr ∧
    placeObjs 4 0 [oAlias] (initPState 4 4) =
      Except.ok ⟨((List.replicate 32 0).set 8 1).set 9 128,
        List.replicate 20 [], List.replicate 20 []⟩ ∧
    ([oAlias].filterMap (ordCell 4 0 (4 * 4 * sbytes))).Nodup := by
  have hmi : mapiOf 4 oAlias = 8 := by
    norm_num [mapiOf, mapxOf, mapyOf, objX, objY, oAlias, tilesize, sbytes]
  have hpy : pyIdx sColl.smap.length (mapiOf 4 oAlias) = some 8 := by
    rw [hmi]; decide
  have hrun : placeObjs 4 0 [oAlias] (initPState 4 4) =
      Except.ok ⟨((List.replicate 32 0).set 8 1).set 9 128,
        List.replicate 20 [], List.replicate 20 []⟩ := by
    simp only [placeObjs]
    norm_num [placeObj, idOf, mapiOf, mapxOf, mapyOf, objX, objY, oAlias, tilesize,
      sbytes, pagesprite, slendersprite, initPState, pyIdx, mapfraction]
    decide
  refine ⟨by decide, by decide, by decide, hpy, by decide, ?_, hrun, ?_⟩
  · exact C4_collision_is_fatal_and_cells_unique.1 4 0 sColl oAlias 8
      (by decide) (by decide) (by decide) hpy (by decide)
  · exact C4_collision_is_fatal_and_cells_unique.2 4 4 0 [oAlias] _ hrun

/-! ## Correctness of the tile rasterizer -/

/-- The flipped cell of scan index `i` is inside the `width * height` grid. -/
theorem tmi_flip_lt (w h i : Nat) (hw : 0 < w) (hi : i < w * h) :
    tmi w (w - 1 - i % w) (i / w) < w * h := by
  unfold tmi
  have hmw : i % w < w := Nat.mod_lt i hw
  have hb : i / w < h := by
    rw [Nat.div_lt_iff_lt_mul hw]
    exact lt_of_lt_of_le hi (le_of_eq (Nat.mul_comm w h))
  calc w - 1 - i % w + i / w * w < (i / w + 1) * w := by
        rw [Nat.add_mul, Nat.one_mul]
        omega
    _ ≤ h * w := Nat.mul_le_mul_right w (by omega)
    _ = w * h := Nat.mul_comm h w

/-- The scan index can be recovered from its flipped cell. -/
theorem tmi_flip_recover (w i : Nat) (hw : 0 < w) :
    tmi w (w - 1 - i % w) (i / w) / w * w +
      (w - 1 - tmi w (w - 1 - i % w) (i / w) % w) = i := by
  unfold tmi
  have hmw : i % w < w := Nat.mod_lt i hw
  have ha : w - 1 - i % w < w := by omega
  rw [Nat.add_mul_div_right _ _ hw, Nat.div_eq_of_lt ha, Nat.zero_add,
    Nat.add_mul_mod_self_right, Nat.mod_eq_of_lt ha,
    Nat.sub_sub_self (by omega : i % w ≤ w - 1)]
  rw [Nat.mul_comm]
  exact Nat.div_add_mod i w

/-- The scan-index-to-flipped-cell map is injective. -/
theorem tmi_flip_inj (w : Nat) (hw : 0 < w) {a b : Nat}
    (h : tmi w (w - 1 - a % w) (a / w) = tmi w (w - 1 - b % w) (b / w)) : a = b := by
  have ka := tmi_flip_recover w a hw
  have kb := tmi_flip_recover w b hw
  rw [← ka, ← kb, h]

/-- The tile map written by one raster step, independent of the entrance test. -/
theorem rasterStep_tmap (w : Nat) (g : Int) (i : Nat) (v : Int) (s : TState) :
    (rasterStep w g i v s).tmap =
      s.tmap.set (tmi w (w - 1 - i % w) (i / w)) (max 0 (v - g)) := by
  simp only [rasterStep]
  split <;> rfl

/-- A raster step does not change the tile map length. -/
theorem rasterStep_tmap_length (w : Nat) (g : Int) (i : Nat) (v : Int) (s : TState) :
    (rasterStep w g i v s).tmap.length = s.tmap.length := by
  rw [rasterStep_tmap, List.length_set]

/-- The raster loop splits over list concatenation. -/
theorem rasterLoop_append (w : Nat) (g : Int) (l1 l2 : List Int) (i : Nat) (s : TState) :
    rasterLoop w g i (l1 ++ l2) s =
      rasterLoop w g (i + l1.length) l2 (rasterLoop w g i l1 s) := by
  induction l1 generalizing i s with
  | nil => simp [rasterLoop]
  | cons v rest ih =>
    simp only [List.cons_append, rasterLoop, List.length_cons, List.append_eq]
    rw [ih, show i + (rest.length + 1) = i + 1 + rest.length from by omega]

/-- The raster loop does not change the tile map length. -/
theorem rasterLoop_tmap_length (w : Nat) (g : Int) (l : List Int) :
    ∀ (i : Nat) (s : TState), (rasterLoop w g i l s).tmap.length = s.tmap.length := by
  induction l with
  | nil => intro i s; rfl
  | cons v rest ih =>
    intro i s
    simp only [rasterLoop]
    rw [ih, rasterStep_tmap_length]

/-- Length of the rasterized tile map. -/
theorem rasterize_tmap_length (w h : Nat) (g : Int) (data : List Int) :
    (rasterize w h g data).tmap.length = w * h := by
  unfold rasterize
  rw [rasterLoop_tmap_length]
  exact List.length_replicate _ _

/-- Appending one tile value runs one more raster step. -/
theorem rasterize_append (w h : Nat) (g : Int) (l : List Int) (v : Int) :
    rasterize w h g (l ++ [v]) = rasterStep w g l.length v (rasterize w h g l) := by
  unfold rasterize
  rw [rasterLoop_append]
  simp [rasterLoop]

/-- Scan indices whose stored value `max(0, raw - tilegid)` equals the
entrance marker, in scan order. -/
def entranceMatches (tilegid : Int) (data : List Int) : List Nat :=
  (List.range data.length).filter (fun i => max 0 (data.getD i 0 - tilegid) = entrancetile)

/-- Appending one tile value extends the match list by at most the new index. -/
theorem entranceMatches_append (g : Int) (l : List Int) (v : Int) :
    entranceMatches g (l ++ [v]) =
      entranceMatches g l ++
        (if max 0 (v - g) = entrancetile then [l.length] else []) := by
  unfold entranceMatches
  have hlen : (l ++ [v]).length = l.length + 1 := by simp
  rw [hlen, List.range_succ, List.filter_append]
  congr 1
  · apply List.filter_congr
    intro i hi
    rw [List.getD_append _ _ _ _ (List.mem_range.mp hi)]
  · have hv : (l ++ [v]).getD l.length 0 = v := by
      rw [List.getD_eq_getElem?_getD, List.getElem?_concat_length]
      rfl
    simp only [List.filter_cons, List.filter_nil, hv]
    split
    · next h => rw [if_pos (by simpa using h)]
    · next h => rw [if_neg (by simpa using h)]

/-- The entrance coordinate after one raster step, provided the written cell
is inside the tile map. -/
theorem rasterStep_entrance (w : Nat) (g : Int) (i : Nat) (v : Int) (s : TState)
    (hlt : tmi w (w - 1 - i % w) (i / w) < s.tmap.length) :
    ((rasterStep w g i v s).entrance_x, (rasterStep w g i v s).entrance_y) =
      if max 0 (v - g) = entrancetile then (w - 1 - i % w, i / w)
      else (s.entrance_x, s.entrance_y) := by
  have hread : (s.tmap.set (tmi w (w - 1 - i % w) (i / w)) (max 0 (v - g))).getD
      (tmi w (w - 1 - i % w) (i / w)) 0 = max 0 (v - g) := by
    rw [List.getD_eq_getElem?_getD, List.getElem?_set_eq_of_lt _ hlt]
    rfl
  simp only [rasterStep, hread]
  split <;> rfl

/-- Main invariant of the rasterizer, proved by induction from the right end
of the data list. -/
theorem rasterize_spec (w h : Nat) (g : Int) (hw : 0 < w) (data : List Int) :
    data.length ≤ w * h →
      (∀ i, i < data.length →
        (rasterize w h g data).tmap.getD (tmi w (w - 1 - i % w) (i / w)) 0 =
          max 0 (data.getD i 0 - g)) ∧
      (entranceMatches g data = [] →
        (rasterize w h g data).entrance_x = 0 ∧ (rasterize w h g data).entrance_y = 0) ∧
      (∀ m, (entranceMatches g data).getLast? = some m →
        (rasterize w h g data).entrance_x = w - 1 - m % w ∧
        (rasterize w h g data).entrance_y = m / w) := by
  induction data using List.reverseRecOn with
  | nil =>
    intro _
    refine ⟨?_, ?_, ?_⟩
    · intro i hi
      simp at hi
    · intro _
      exact ⟨rfl, rfl⟩
    · intro m hm
      simp [entranceMatches] at hm
  | append_singleton l v ih =>
    intro hlen
    have hln : l.length < w * h := by
      simp only [List.length_append, List.length_singleton] at hlen
      omega
    obtain ⟨ih1, ih2, ih3⟩ := ih (le_of_lt hln)
    have hr := rasterize_append w h g l v
    have htl : (rasterize w h g l).tmap.length = w * h := rasterize_tmap_length w h g l
    have hmi_lt : tmi w (w - 1 - l.length % w) (l.length / w) <
        (rasterize w h g l).tmap.length := by
      rw [htl]
      exact tmi_flip_lt w h l.length hw hln
    have hstep_t := rasterStep_tmap w g l.length v (rasterize w h g l)
    have hstep_e := rasterStep_entrance w g l.length v (rasterize w h g l) hmi_lt
    refine ⟨?_, ?_, ?_⟩
    · intro i hi
      rw [hr, hstep_t]
      have hi1 : i < l.length + 1 := by simpa using hi
      rcases Nat.lt_or_ge i l.length with hilt | hige
      · have hne : tmi w (w - 1 - l.length % w) (l.length / w) ≠
            tmi w (w - 1 - i % w) (i / w) := by
          intro hcon
          exact absurd (tmi_flip_inj w hw hcon) (by omega)
        rw [List.getD_eq_getElem?_getD, List.getElem?_set_ne hne,
          ← List.getD_eq_getElem?_getD, List.getD_append _ _ _ _ hilt]
        exact ih1 i hilt
      · have hie : i = l.length := by omega
        subst hie
        rw [List.getD_eq_getElem?_getD, List.getElem?_set_eq_of_lt _ hmi_lt]
        have hv : (l ++ [v]).getD l.length 0 = v := by
          rw [List.getD_eq_getElem?_getD, List.getElem?_concat_length]
          rfl
        rw [hv]
        rfl
    · intro hemp
      rw [entranceMatches_append] at hemp
      rcases List.append_eq_nil.mp hemp with ⟨h1, h2⟩
      have hv : ¬ max 0 (v - g) = entrancetile := by
        intro hcon
        rw [if_pos hcon] at h2
        cases h2
      rw [if_neg hv] at hstep_e
      have hx := congrArg Prod.fst hstep_e
      have hy := congrArg Prod.snd hstep_e
      simp only at hx hy
      rw [hr]
      exact ⟨by rw [hx]; exact (ih2 h1).1, by rw [hy]; exact (ih2 h1).2⟩
    · intro m hm
      rw [entranceMatches_append] at hm
      rw [hr]
      by_cases hv : max 0 (v - g) = entrancetile
      · rw [if_pos hv] at hm
        rw [List.getLast?_append] at hm
        have hme : m = l.length := by simpa using hm.symm
        subst hme
        rw [if_pos hv] at hstep_e
        have hx := congrArg Prod.fst hstep_e
        have hy := congrArg Prod.snd hstep_e
        simp only at hx hy
        exact ⟨hx, hy⟩
      · rw [if_neg hv] at hm
        rw [List.append_nil] at hm
        rw [if_neg hv] at hstep_e
        have hx := congrArg Prod.fst hstep_e
        have hy := congrArg Prod.snd hstep_e
        simp only at hx hy
        exact ⟨by rw [hx]; exact (ih3 m hm).1, by rw [hy]; exact (ih3 m hm).2⟩

/-- C3: for every entry index `i` of the tile layer flat array (length
`width * height`), the rasterizer stores `max(0, raw - tile_firstgid)` at the
flipped cell `(mx, my) = (width - 1 - i % width, i / width)`; the entrance
coordinate is the `(mx, my)` of the last entry in scan order whose stored
value equals the entrance marker `2`, and it is `(0, 0)` if no entry matches. -/
theorem C3_tile_rasterizer (width height : Nat) (tilegid : Int) (data : List Int)
    (hw : 0 < width) (hlen : data.length = width * height) :
    (∀ i, i < data.length →
      (rasterize width height tilegid data).tmap.getD
        (tmi width (width - 1 - i % width) (i / width)) 0 =
        max 0 (data.getD i 0 - tilegid)) ∧
    (entranceMatches tilegid data = [] →
      (rasterize width height tilegid data).entrance_x = 0 ∧
      (rasterize width height tilegid data).entrance_y = 0) ∧
    (∀ m, (entranceMatches tilegid data).getLast? = some m →
      (rasterize width height tilegid data).entrance_x = width - 1 - m % width ∧
      (rasterize width height tilegid data).entrance_y = m / width) :=
  rasterize_spec width height tilegid hw data (le_of_eq hlen)

/-- Witness for C3 on the concrete 2x2 layer `[3, 4, 5, 2]` with
`tilegid = 1`: entry 0 stores `2` at the flipped cell `(1, 0)`, which is also
the (unique, hence last) entrance match. -/
theorem C3_witness :
    (0 < 2) ∧ (([3, 4, 5, 2] : List Int).length = 2 * 2) ∧
    ((entranceMatches 1 [3, 4, 5, 2]).getLast? = some 0) ∧
    (rasterize 2 2 1 [3, 4, 5, 2]).tmap.getD (tmi 2 (2 - 1 - 0 % 2) (0 / 2)) 0 =
      max 0 (([3, 4, 5, 2] : List Int).getD 0 0 - 1) ∧
    (rasterize 2 2 1 [3, 4, 5, 2]).entrance_x = 2 - 1 - 0 % 2 ∧
    (rasterize 2 2 1 [3, 4, 5, 2]).entrance_y = 0 / 2 :=
  ⟨by decide, by decide, by decide,
   (C3_tile_rasterizer 2 2 1 [3, 4, 5, 2] (by decide) (by decide)).1 0 (by decide),
   ((C3_tile_rasterizer 2 2 1 [3, 4, 5, 2] (by decide) (by decide)).2.2 0 (by decide)).1,
   ((C3_tile_rasterizer 2 2 1 [3, 4, 5, 2] (by decide) (by decide)).2.2 0 (by decide)).2⟩

/-! ## Correctness of the landmark table emitter -/

/-- The raw table is the concatenation, over non-empty slots in order, of the
pair count followed by the slot values. -/
theorem dumpSections_raw (nb tot : Nat) (data : List (List Int)) :
    (dumpSections nb tot data).1 =
      ((data.filter (fun l => l ≠ [])).map
        (fun l => ((l.length / nb : Nat) : Int) :: l)).flatten := by
  induction data generalizing tot with
  | nil => rfl
  | cons l rest ih =>
    unfold dumpSections
    by_cases hl : l = []
    · simp [hl, ih]
    · simp [hl, ih]

/-- The offsets table lists, for each non-empty slot in order, the running
total of the section sizes (count byte plus values) before it. -/
theorem dumpSections_idx (nb : Nat) (data : List (List Int)) :
    ∀ tot : Nat, (dumpSections nb tot data).2.2 =
      (List.range (data.filter (fun l => l ≠ [])).length).map
        (fun k => tot + (((data.filter (fun l => l ≠ [])).take k).map
          (fun t => t.length + 1)).sum) := by
  induction data with
  | nil => intro tot; rfl
  | cons l rest ih =>
    intro tot
    unfold dumpSections
    by_cases hl : l = []
    · simp only [if_pos hl]
      rw [ih tot]
      have hfil : (l :: rest).filter (fun t => t ≠ []) =
          rest.filter (fun t => t ≠ []) := by
        simp [List.filter_cons, hl]
      rw [hfil]
    · simp only [if_neg hl]
      rw [ih (tot + 1 + l.length)]
      have hfil : (l :: rest).filter (fun t => t ≠ []) =
          l :: rest.filter (fun t => t ≠ []) := by
        simp [List.filter_cons, hl]
      rw [hfil, List.length_cons, List.range_succ_eq_map]
      simp only [List.map_cons, List.map_map]
      congr 1
      apply List.map_congr_left
      intro k hk
      simp only [Function.comp_apply, List.take_succ_cons, List.map_cons, List.sum_cons]
      omega

/-- Dropping the lengths of the first `r` chunks from a flattened list leaves
the flattening of the remaining chunks. -/
theorem flatten_drop_sum (ms : List (List Int)) :
    ∀ r : Nat, ms.flatten.drop (((ms.take r).map List.length).sum) =
      (ms.drop r).flatten := by
  induction ms with
  | nil => intro r; simp
  | cons m t ih =>
    intro r
    cases r with
    | zero => simp
    | succ r =>
      rw [List.take_succ_cons, List.map_cons, List.sum_cons, List.flatten_cons,
        List.drop_succ_cons, ← List.drop_drop, List.drop_left]
      exact ih r

/-- C5: for every landmark slot `K` holding `N > 0` coordinate pairs, the raw
table is the concatenation over non-empty slots (in id order, skipping empty
slots) of the count-prefixed sections; the offsets table has one entry per
non-empty slot, each the running size of the sections before it; and the
offsets entry of the rank of slot `K` points at the section `N` followed by
exactly `2N` coordinate bytes. -/
theorem C5_landmark_raw_offsets (data : List (List Int)) (K N : Nat)
    (hK : K < data.length) (hne : data.getD K [] ≠ [])
    (hlen2 : (data.getD K []).length = 2 * N) :
    (dumpSections 2 0 data).1 =
      ((data.filter (fun l => l ≠ [])).map
        (fun l => ((l.length / 2 : Nat) : Int) :: l)).flatten ∧
    (dumpSections 2 0 data).2.2.length = (data.filter (fun l => l ≠ [])).length ∧
    (∀ k, k < (data.filter (fun l => l ≠ [])).length →
      (dumpSections 2 0 data).2.2.getD k 0 =
        (((data.filter (fun l => l ≠ [])).take k).map (fun t => t.length + 1)).sum) ∧
    ((data.take K).filter (fun l => l ≠ [])).length <
      (data.filter (fun l => l ≠ [])).length ∧
    ((dumpSections 2 0 data).1.drop
        ((dumpSections 2 0 data).2.2.getD
          (((data.take K).filter (fun l => l ≠ [])).length) 0)).take (1 + 2 * N) =
      (N : Int) :: data.getD K [] := by
  have hgetd : data.getD K [] = data[K] := List.getD_eq_getElem data [] hK
  have hsplit : data.filter (fun l => l ≠ []) =
      (data.take K).filter (fun l => l ≠ []) ++
        (data.getD K [] :: (data.drop (K + 1)).filter (fun l => l ≠ [])) := by
    conv_lhs => rw [← List.take_append_drop K data]
    rw [List.filter_append, List.drop_eq_getElem_cons hK]
    congr 1
    have hPK : data[K] ≠ ([] : List Int) := by rw [← hgetd]; exact hne
    rw [List.filter_cons, if_pos (by simpa using hPK), ← hgetd]
  have hdropsecs : (data.filter (fun l => l ≠ [])).drop
      (((data.take K).filter (fun l => l ≠ [])).length) =
      data.getD K [] :: (data.drop (K + 1)).filter (fun l => l ≠ []) := by
    rw [hsplit, List.drop_left]
  have hrlt : ((data.take K).filter (fun l => l ≠ [])).length <
      (data.filter (fun l => l ≠ [])).length := by
    rw [hsplit, List.length_append, List.length_cons]
    omega
  have hidx : ∀ k, k < (data.filter (fun l => l ≠ [])).length →
      (dumpSections 2 0 data).2.2.getD k 0 =
        (((data.filter (fun l => l ≠ [])).take k).map (fun t => t.length + 1)).sum := by
    intro k hk
    rw [dumpSections_idx]
    rw [List.getD_eq_getElem _ 0 (by simpa using hk)]
    simp
  refine ⟨dumpSections_raw 2 0 data, ?_, hidx, hrlt, ?_⟩
  · rw [dumpSections_idx]
    simp
  · rw [dumpSections_raw 2 0 data, hidx _ hrlt]
    have hsum : (((data.filter (fun l => l ≠ [])).take
          (((data.take K).filter (fun l => l ≠ [])).length)).map
            (fun t => t.length + 1)).sum =
        ((((data.filter (fun l => l ≠ [])).map
            (fun l => ((l.length / 2 : Nat) : Int) :: l)).take
              (((data.take K).filter (fun l => l ≠ [])).length)).map List.length).sum := by
      rw [← List.map_take, List.map_map]
      apply congrArg
      apply List.map_congr_left
      intro t ht
      simp
    rw [hsum, flatten_drop_sum, ← List.map_drop, hdropsecs, List.map_cons,
      List.flatten_cons]
    have hflen : (((data.getD K []).length / 2 : Nat) : Int) = (N : Int) := by
      rw [hlen2, Nat.mul_div_cancel_left N (by norm_num : 0 < 2)]
    rw [hflen]
    rw [show 1 + 2 * N = ((N : Int) :: data.getD K []).length from by
      rw [List.length_cons, hlen2]; omega]
    rw [List.take_left]

/-- Witness for C5: in `[[1,2], [], [3,4,5,6]]`, slot `2` holds `N = 2` pairs;
its rank among non-empty slots is `1`, the offsets entry there is `3`, and the
raw table from position `3` reads `2, 3, 4, 5, 6` — the count `2` followed by
exactly `4` coordinate bytes. -/
theorem C5_witness :
    (2 < ([[1, 2], [], [3, 4, 5, 6]] : List (List Int)).length) ∧
    (([[1, 2], [], [3, 4, 5, 6]] : List (List Int)).getD 2 [] ≠ []) ∧
    ((([[1, 2], [], [3, 4, 5, 6]] : List (List Int)).getD 2 []).length = 2 * 2) ∧
    ((dumpSections 2 0 [[1, 2], [], [3, 4, 5, 6]]).1.drop
        ((dumpSections 2 0 [[1, 2], [], [3, 4, 5, 6]]).2.2.getD
          ((([[1, 2], [], [3, 4, 5, 6]] : List (List Int)).take 2).filter
            (fun l => l ≠ [])).length 0)).take (1 + 2 * 2) =
      ((2 : Nat) : Int) :: ([[1, 2], [], [3, 4, 5, 6]] : List (List Int)).getD 2 [] :=
  ⟨by decide, by decide, by decide,
   (C5_landmark_raw_offsets [[1, 2], [], [3, 4, 5, 6]] 2 2 (by decide) (by decide)
     (by decide)).2.2.2.2⟩
